import Mathlib

/-!
# Verification of the gollm provider-orchestration core

Shallow embedding of the gollm repository's model registry
(`pkg/llm`, registry file), orchestration service (`pkg/llm/service.go`),
request options (`pkg/llm/provider.go`) and query-history store
(`pkg/logger`), together with proofs settling the frozen claims about
the natural-language specification.

Go maps with string keys are embedded as association lists
(`List (String × β)`) with Go's assignment (overwrite-or-append) and
lookup semantics; Go's nondeterministic goroutine scheduling in the
fan-out path is captured by quantifying over permutations of the tasks'
writes into the shared result map.
-/

set_option maxRecDepth 10000

/-- Go map read `v, ok := m[k]`, embedded on an association list:
first entry with the key wins. -/
def mapGet {β : Type} : List (String × β) → String → Option β
  | [], _ => none
  | (k, v) :: rest, key => if k = key then some v else mapGet rest key

/-- Go map assignment `m[k] = v`, embedded on an association list:
replace the entry holding the key, or append a new entry. -/
def mapSet {β : Type} : List (String × β) → String → β → List (String × β)
  | [], key, val => [(key, val)]
  | (k, v) :: rest, key, val =>
      if k = key then (key, val) :: rest else (k, v) :: mapSet rest key val

namespace llm

/-- `ProviderModel` from the registry file: the ordered model list of one
provider. -/
structure ProviderModel where
  models : List String
deriving DecidableEq, Repr

/-- `SupportedProviders`: the static provider → models table, transcribed
verbatim from the registry source. -/
def SupportedProviders : List (String × ProviderModel) :=
  [ ("anthropic", ⟨["claude-3-7-sonnet-latest"]⟩),
    ("deepseek", ⟨["deepseek-coder", "deepseek-chat"]⟩),
    ("google", ⟨["gemini-2.5-pro-exp-03-25", "gemini-2.0-flash",
                 "gemini-2.0-flash-lite", "gemini-1.5-flash",
                 "gemini-1.5-flash-8b"]⟩) ]

/-- `ModelToProvider`, built as in the registry's `init`: iterate the
provider table and assign `model ↦ provider` for every listed model. -/
def ModelToProvider : List (String × String) :=
  SupportedProviders.foldl
    (fun acc entry => entry.2.models.foldl (fun acc2 m => mapSet acc2 m entry.1) acc)
    []

/-- `GetProviderForModel` from the registry source. -/
def GetProviderForModel (model : String) : Option String :=
  mapGet ModelToProvider model

/-- `IsValidModel` from the registry source. -/
def IsValidModel (model : String) : Bool :=
  (GetProviderForModel model).isSome

/-- `IsValidProvider` from the registry source. -/
def IsValidProvider (provider : String) : Bool :=
  (mapGet SupportedProviders provider).isSome

/-- `GetModelsForProvider` from the registry source (`nil` for an unknown
provider becomes the empty list). -/
def GetModelsForProvider (provider : String) : List String :=
  match mapGet SupportedProviders provider with
  | some info => info.models
  | none => []

end llm

/-- A lookup that succeeds finds an entry of the list. -/
theorem mapGet_some_mem {β : Type} (l : List (String × β)) (k : String) (v : β)
    (h : mapGet l k = some v) : (k, v) ∈ l := by
  induction l with
  | nil => simp [mapGet] at h
  | cons hd tl ih =>
      obtain ⟨k', v'⟩ := hd
      by_cases hk : k' = k
      · subst hk
        simp [mapGet] at h
        simp [h]
      · simp [mapGet, hk] at h
        exact List.mem_cons_of_mem _ (ih h)

/-- Soundness of the derived registry index: every entry of
`ModelToProvider` points back to a provider that lists the model.
Checked by evaluation of the concrete table. -/
theorem modelToProvider_sound :
    ∀ e ∈ llm.ModelToProvider,
      llm.GetProviderForModel e.1 = some e.2 ∧ e.1 ∈ llm.GetModelsForProvider e.2 := by
  decide

/-- No model is listed under more than one provider in the concrete table. -/
theorem supportedProviders_models_disjoint :
    ∀ e1 ∈ llm.SupportedProviders, ∀ e2 ∈ llm.SupportedProviders,
      ∀ m, m ∈ e1.2.models → m ∈ e2.2.models → e1.1 = e2.1 := by
  decide

/-- **C2.** For every model `m` with `IsValidModel m`, `GetProviderForModel m`
returns some provider `p` with `m ∈ GetModelsForProvider p` (the index built
at startup round-trips with the provider → models table), and no model is
listed under more than one provider. -/
theorem C2_registry_roundtrip (m : String) (h : llm.IsValidModel m = true) :
    (∃ p, llm.GetProviderForModel m = some p ∧ m ∈ llm.GetModelsForProvider p) ∧
    (∀ e1 ∈ llm.SupportedProviders, ∀ e2 ∈ llm.SupportedProviders,
      m ∈ e1.2.models → m ∈ e2.2.models → e1.1 = e2.1) := by
  constructor
  · unfold llm.IsValidModel at h
    obtain ⟨p, hp⟩ := Option.isSome_iff_exists.mp h
    refine ⟨p, hp, ?_⟩
    exact (modelToProvider_sound (m, p) (mapGet_some_mem _ _ _ hp)).2
  · intro e1 h1 e2 h2 hm1 hm2
    exact supportedProviders_models_disjoint e1 h1 e2 h2 m hm1 hm2

/-- Witness for C2 at the concrete model `deepseek-chat`. -/
theorem C2_registry_roundtrip_witness :
    (∃ p, llm.GetProviderForModel "deepseek-chat" = some p ∧
      p = "deepseek" ∧ "deepseek-chat" ∈ llm.GetModelsForProvider p) := by
  obtain ⟨⟨p, hp, hmem⟩, _⟩ := C2_registry_roundtrip "deepseek-chat" (by decide)
  refine ⟨p, hp, ?_, hmem⟩
  have : llm.GetProviderForModel "deepseek-chat" = some "deepseek" := by decide
  rw [this] at hp
  exact (Option.some_inj.mp hp).symm

namespace llm

/-- Tagged variant for a provider-specific custom parameter value
(`interface\x7b\x7d` in the source, kept as a closed variant per the
design notes). -/
inductive ParamValue where
  | str (s : String)
  | num (q : ℚ)
  | boolean (b : Bool)
deriving DecidableEq, Repr

/-- `RequestOptions` from `provider.go`; field defaults are Go's zero
values (`&RequestOptions\x7b\x7d`). -/
structure RequestOptions where
  model : String := ""
  maxTokens : ℤ := 0
  temperature : ℚ := 0
  customParams : List (String × ParamValue) := []
deriving DecidableEq

/-- The functional options of `provider.go`: one constructor per exported
option builder (`WithModel`, `WithMaxTokens`, `WithTemperature`,
`WithCustomParam`). -/
inductive Opt where
  | WithModel (model : String)
  | WithMaxTokens (n : ℤ)
  | WithTemperature (t : ℚ)
  | WithCustomParam (key : String) (value : ParamValue)
deriving DecidableEq, Repr

/-- Application of one functional option to a `RequestOptions` value,
mirroring the closure bodies in `provider.go`. -/
def applyOpt (o : RequestOptions) : Opt → RequestOptions
  | .WithModel m => { o with model := m }
  | .WithMaxTokens n => { o with maxTokens := n }
  | .WithTemperature t => { o with temperature := t }
  | .WithCustomParam k v => { o with customParams := mapSet o.customParams k v }

/-- Composition of an option sequence: each mutator applied in order to a
default-initialized `RequestOptions`, as every adapter does before a call. -/
def composeOpts (opts : List Opt) : RequestOptions :=
  opts.foldl applyOpt {}

/-- One iteration of the temperature-extraction loop of `QueryWithTiming`
(`service.go:83-92`): apply the option to a fresh zero `RequestOptions` and
keep its temperature when it is not `0`. -/
def extractStep (t : ℚ) (o : Opt) : ℚ :=
  if (applyOpt {} o).temperature ≠ 0 then (applyOpt {} o).temperature else t

/-- The temperature-extraction loop of `QueryWithTiming`
(`service.go:82-92`): start from the default `0.7` and run `extractStep`
over every option in order. -/
def extractTemperature (opts : List Opt) : ℚ :=
  opts.foldl extractStep (7 / 10)

end llm

/-- The extraction loop tracks the temperature of the composed options:
for accumulators that agree on non-zero temperatures, a non-zero composed
temperature is exactly the extracted one. -/
theorem extract_tracks_composed (opts : List llm.Opt) :
    ∀ (ro : llm.RequestOptions) (b : ℚ), (ro.temperature ≠ 0 → b = ro.temperature) →
      (opts.foldl llm.applyOpt ro).temperature ≠ 0 →
      opts.foldl llm.extractStep b = (opts.foldl llm.applyOpt ro).temperature := by
  induction opts with
  | nil => intro ro b hab h; exact hab h
  | cons o rest ih =>
      intro ro b hab
      simp only [List.foldl_cons]
      refine ih (llm.applyOpt ro o) (llm.extractStep b o) ?_
      cases o with
      | WithModel m => intro h; exact hab h
      | WithMaxTokens n => intro h; exact hab h
      | WithTemperature t =>
          intro h
          have ht : (llm.applyOpt ro (llm.Opt.WithTemperature t)).temperature = t := rfl
          rw [ht] at h ⊢
          simp [llm.extractStep, llm.applyOpt, h]
      | WithCustomParam k v => intro h; exact hab h

/-- When no option in the sequence sets a non-zero temperature, the
extraction loop returns its accumulator unchanged. -/
theorem extract_const_of_all_zero (opts : List llm.Opt)
    (h : ∀ o ∈ opts, (llm.applyOpt {} o).temperature = 0) :
    ∀ b : ℚ, opts.foldl llm.extractStep b = b := by
  induction opts with
  | nil => intro b; rfl
  | cons o rest ih =>
      intro b
      have ho := h o (List.mem_cons_self o rest)
      have hstep : llm.extractStep b o = b := by simp [llm.extractStep, ho]
      simp only [List.foldl_cons, hstep]
      exact ih (fun o' ho' => h o' (List.mem_cons_of_mem _ ho')) b


namespace llm

/-- The Go `error` values that appear in the orchestration paths:
the two service-level failures built with `fmt.Errorf` in
`QueryWithTiming`, the default-model failure of
`GetDefaultModelForProvider`, and an opaque adapter-side failure. -/
inductive GoErr where
  | unknownModel (model : String)
  | providerNotConfigured (provider : String)
  | noModels (provider : String)
  | adapterFailure (msg : String)
deriving DecidableEq, Repr

/-- The multiple-return value of `Provider.Query`: response text, optional
error, plus the wall time the call takes (the quantity `time.Since`
measures around it). -/
structure ProvResult where
  response : String
  error : Option GoErr
  elapsed : ℕ
deriving DecidableEq

/-- A provider adapter, abstracted to its `Query` behaviour: the claims
quantify over arbitrary adapter outcomes. -/
def ProviderF : Type := String → List Opt → ProvResult

/-- The orchestration `Service`: the configured adapters keyed by provider
name (a Go map, so keys are distinct), and whether a query logger is
attached (`s.logger != nil`). -/
structure Service where
  providers : List (String × ProviderF)
  logger : Bool

/-- The argument tuple of one `logger.LogQuery` call emitted by the
service: prompt, model name, response, elapsed duration (nanoseconds) and
the extracted temperature. -/
structure EmittedQuery where
  prompt : String
  model : String
  response : String
  duration : ℕ
  temperature : ℚ
deriving DecidableEq, Repr

/-- The observable outcome of `QueryWithTiming`: the returned triple
`(response, elapsedTime, err)` plus the list of records the call emits to
the history store (empty, or the single asynchronous `LogQuery`). -/
structure QueryOutcome where
  response : String
  elapsed : ℕ
  error : Option GoErr
  logged : List EmittedQuery
deriving DecidableEq

/-- `Service.QueryWithTiming` (`service.go:63-116`): validate the model,
resolve and look up the provider, prepend `WithModel`, extract the
temperature for logging, run the adapter, and on success with a logger
attached emit one history record. -/
def QueryWithTiming (s : Service) (prompt modelName : String) (opts : List Opt) :
    QueryOutcome :=
  if IsValidModel modelName = false then
    { response := "", elapsed := 0, error := some (.unknownModel modelName), logged := [] }
  else
    let providerName := (GetProviderForModel modelName).getD ""
    match mapGet s.providers providerName with
    | none =>
        { response := "", elapsed := 0,
          error := some (.providerNotConfigured providerName), logged := [] }
    | some provider =>
        let options := Opt.WithModel modelName :: opts
        let temperature := extractTemperature options
        let r := provider prompt options
        let logged :=
          match r.error, s.logger with
          | none, true =>
              [{ prompt := prompt, model := modelName, response := r.response,
                 duration := r.elapsed, temperature := temperature }]
          | _, _ => []
        { response := r.response, elapsed := r.elapsed, error := r.error, logged := logged }

/-- `Service.Query` (`service.go:118-122`): delegate to `QueryWithTiming`
and drop the elapsed time. -/
def Query (s : Service) (prompt modelName : String) (opts : List Opt) :
    String × Option GoErr :=
  let r := QueryWithTiming s prompt modelName opts
  (r.response, r.error)

/-- `GetDefaultModelForProvider` (`service.go:124-133`): the first model of
the provider's registry list, or a failure when the list is empty. -/
def GetDefaultModelForProvider (providerName : String) : Except GoErr String :=
  match GetModelsForProvider providerName with
  | [] => .error (.noModels providerName)
  | m :: _ => .ok m

/-- What one fan-out goroutine produces: the `ProviderResponse` it writes
into the shared result map, and the records it emits to the history store
(none — the goroutine body of `QueryAll` contains no `LogQuery` call). -/
structure ProviderResponse where
  response : String
  model : String
  provider : String
  error : Option GoErr
  elapsedTime : ℕ
deriving DecidableEq, Repr

/-- Result of one fan-out task: its map write plus its history emission. -/
structure TaskResult where
  resp : ProviderResponse
  logged : List EmittedQuery
deriving DecidableEq

/-- The body of one `QueryAll` goroutine (`service.go:147-186`): resolve
the provider's default model (on failure, a response carrying only the
provider name and the error), otherwise prepend `WithModel defaultModel`
to the caller's options, run the adapter, and record response, default
model, provider, error and elapsed time. -/
def queryAllTask (providerName : String) (provider : ProviderF)
    (prompt : String) (opts : List Opt) : TaskResult :=
  match GetDefaultModelForProvider providerName with
  | .error e =>
      { resp := { response := "", model := "", provider := providerName,
                  error := some e, elapsedTime := 0 },
        logged := [] }
  | .ok defaultModel =>
      let providerOptions := Opt.WithModel defaultModel :: opts
      let r := provider prompt providerOptions
      { resp := { response := r.response, model := defaultModel,
                  provider := providerName, error := r.error,
                  elapsedTime := r.elapsed },
        logged := [] }

/-- The set of writes the fan-out tasks perform into the shared result
map, one per configured provider, in the provider table's order; the
scheduler may interleave them in any order (see `collectWrites`). -/
def queryAllWrites (s : Service) (prompt : String) (opts : List Opt) :
    List (String × ProviderResponse) :=
  s.providers.map (fun e => (e.1, (queryAllTask e.1 e.2 prompt opts).resp))

/-- Mutually-exclusive insertion of a sequence of writes into the shared
result map: each write is one `results[providerName] = ...` under the
mutex. -/
def collectWrites (ws : List (String × ProviderResponse)) :
    List (String × ProviderResponse) :=
  ws.foldl (fun m e => mapSet m e.1 e.2) []

/-- `Service.QueryAll` (`service.go:136-193`): launch one task per
configured provider, join all of them, and return the completed result
map. The returned value is order-independent (theorem `C1`), so the
table order serves as the canonical schedule. -/
def QueryAll (s : Service) (prompt : String) (opts : List Opt) :
    List (String × ProviderResponse) :=
  collectWrites (queryAllWrites s prompt opts)

/-- The records a whole `QueryAll` call emits to the history store: the
concatenation of every task's emission. -/
def queryAllLogged (s : Service) (prompt : String) (opts : List Opt) :
    List EmittedQuery :=
  (s.providers.map (fun e => (queryAllTask e.1 e.2 prompt opts).logged)).flatten

end llm

/-- Assigning a fresh key appends the entry. -/
theorem mapSet_not_mem_append {β : Type} (l : List (String × β)) (k : String) (v : β)
    (h : k ∉ l.map Prod.fst) : mapSet l k v = l ++ [(k, v)] := by
  induction l with
  | nil => rfl
  | cons e rest ih =>
      obtain ⟨k', v'⟩ := e
      have hk : k' ≠ k := by
        intro hkk
        exact h (by simp [hkk])
      have hrest : k ∉ rest.map Prod.fst := by
        intro hmem
        exact h (by simp [hmem])
      simp [mapSet, hk, ih hrest]

/-- Inserting writes with pairwise-distinct keys into an accumulator map
just appends them in order. -/
theorem foldl_mapSet_eq_append {β : Type} (ws : List (String × β)) :
    ∀ acc : List (String × β), (((acc ++ ws).map Prod.fst).Nodup) →
      ws.foldl (fun m e => mapSet m e.1 e.2) acc = acc ++ ws := by
  induction ws with
  | nil => intro acc _; simp
  | cons e rest ih =>
      intro acc h
      obtain ⟨k, v⟩ := e
      have hsplit : ((acc ++ (k, v) :: rest).map Prod.fst) =
          acc.map Prod.fst ++ k :: rest.map Prod.fst := by simp
      rw [hsplit] at h
      have hk : k ∉ acc.map Prod.fst := by
        rcases List.nodup_append.mp h with ⟨_, _, hdisj⟩
        intro hmem
        exact hdisj hmem (List.mem_cons_self k _)
      have hassoc : acc ++ [(k, v)] ++ rest = acc ++ (k, v) :: rest := by simp
      calc ((k, v) :: rest).foldl (fun m e => mapSet m e.1 e.2) acc
      _ = rest.foldl (fun m e => mapSet m e.1 e.2) (mapSet acc k v) := rfl
      _ = rest.foldl (fun m e => mapSet m e.1 e.2) (acc ++ [(k, v)]) := by
            rw [mapSet_not_mem_append acc k v hk]
      _ = acc ++ [(k, v)] ++ rest := by
            refine ih (acc ++ [(k, v)]) ?_
            rw [hassoc]
            simpa using h
      _ = acc ++ (k, v) :: rest := hassoc

/-- With pairwise-distinct keys, lookup finds a present entry's value. -/
theorem mapGet_of_mem_nodup {β : Type} (l : List (String × β)) (k : String) (v : β)
    (hnd : (l.map Prod.fst).Nodup) (hmem : (k, v) ∈ l) : mapGet l k = some v := by
  induction l with
  | nil => cases hmem
  | cons e rest ih =>
      obtain ⟨k', v'⟩ := e
      rcases List.mem_cons.mp hmem with heq | hmem'
      · injection heq with h1 h2
        subst h1
        subst h2
        simp [mapGet]
      · have hkrest : k ∈ rest.map Prod.fst :=
          List.mem_map_of_mem Prod.fst hmem'
        have hk : k' ≠ k := by
          intro hkk
          subst hkk
          exact (List.nodup_cons.mp (by simpa using hnd)).1 hkrest
        have hndrest : (rest.map Prod.fst).Nodup :=
          (List.nodup_cons.mp (by simpa using hnd)).2
        simp [mapGet, hk]
        exact ih hndrest hmem'

/-- **C1.** For every configured provider set, every prompt and options, and
every scheduler interleaving `ws` of the fan-out tasks' mutually-exclusive
writes, the mapping `QueryAll` returns after joining all tasks has exactly
the configured providers' names as keys (one entry each), and each
provider's entry is its own task's `ProviderResponse` — an individual
failure shows up only in that entry's `error` field; the call itself has no
failure mode. -/
theorem C1_queryAll_keyset (s : llm.Service) (prompt : String) (opts : List llm.Opt)
    (ws : List (String × llm.ProviderResponse))
    (hperm : ws.Perm (llm.queryAllWrites s prompt opts))
    (hnd : (s.providers.map Prod.fst).Nodup) :
    ((llm.collectWrites ws).map Prod.fst).Perm (s.providers.map Prod.fst) ∧
    ∀ pn p, (pn, p) ∈ s.providers →
      mapGet (llm.collectWrites ws) pn = some (llm.queryAllTask pn p prompt opts).resp := by
  have hkeys : (llm.queryAllWrites s prompt opts).map Prod.fst = s.providers.map Prod.fst := by
    simp [llm.queryAllWrites]
  have hpk : (ws.map Prod.fst).Perm (s.providers.map Prod.fst) := by
    have h := hperm.map Prod.fst
    rwa [hkeys] at h
  have hndws : (ws.map Prod.fst).Nodup := hpk.nodup_iff.mpr hnd
  have hcw : llm.collectWrites ws = ws := by
    have h := foldl_mapSet_eq_append ws [] (by simpa using hndws)
    simpa [llm.collectWrites] using h
  refine ⟨by rw [hcw]; exact hpk, ?_⟩
  intro pn p hmem
  rw [hcw]
  have hw : (pn, (llm.queryAllTask pn p prompt opts).resp) ∈ llm.queryAllWrites s prompt opts :=
    List.mem_map_of_mem (fun e => (e.1, (llm.queryAllTask e.1 e.2 prompt opts).resp)) hmem
  exact mapGet_of_mem_nodup _ _ _ hndws (hperm.mem_iff.mpr hw)

/-- A configured adapter that always succeeds, for concrete instantiations. -/
def okProvider : llm.ProviderF := fun _ _ => { response := "pong", error := none, elapsed := 5 }

/-- A configured adapter that always fails, for concrete instantiations. -/
def failProvider : llm.ProviderF :=
  fun _ _ => { response := "", error := some (.adapterFailure "boom"), elapsed := 7 }

/-- A two-provider service: `test` is unknown to the registry (its
default-model resolution fails), `google` is known but its call fails. -/
def twoProviderService : llm.Service :=
  { providers := [("test", okProvider), ("google", failProvider)], logger := false }

/-- Witness for C1: on the concrete two-provider service, with the tasks'
writes arriving in reversed scheduler order, the result map still has
exactly the two provider keys and each entry is its own task's response. -/
theorem C1_queryAll_keyset_witness :
    ((llm.collectWrites ((llm.queryAllWrites twoProviderService "hi" []).reverse)).map
        Prod.fst).Perm (twoProviderService.providers.map Prod.fst) ∧
    mapGet (llm.collectWrites ((llm.queryAllWrites twoProviderService "hi" []).reverse)) "test" =
      some (llm.queryAllTask "test" okProvider "hi" []).resp ∧
    mapGet (llm.collectWrites ((llm.queryAllWrites twoProviderService "hi" []).reverse)) "google" =
      some (llm.queryAllTask "google" failProvider "hi" []).resp := by
  have h := C1_queryAll_keyset twoProviderService "hi" []
    ((llm.queryAllWrites twoProviderService "hi" []).reverse)
    (List.reverse_perm _) (by decide)
  refine ⟨h.1, h.2 "test" okProvider ?_, h.2 "google" failProvider ?_⟩
  · exact List.mem_cons_self _ _
  · exact List.mem_cons_of_mem _ (List.mem_cons_self _ _)

/-- A fan-out task emits no history record: the goroutine body of
`QueryAll` contains no `LogQuery` call, on either of its branches. -/
theorem queryAllTask_logged_nil (pn : String) (p : llm.ProviderF)
    (prompt : String) (opts : List llm.Opt) :
    (llm.queryAllTask pn p prompt opts).logged = [] := by
  unfold llm.queryAllTask
  cases llm.GetDefaultModelForProvider pn with
  | error e => rfl
  | ok dm => rfl

/-- **C8.** A `QueryAll` call writes nothing to the history store: the
persisted records are unchanged after the fan-out completes, even when a
logger is attached to the service and individual provider calls succeed. -/
theorem C8_queryAll_no_history_write (s : llm.Service) (prompt : String)
    (opts : List llm.Opt) (db : List llm.EmittedQuery) (hlog : s.logger = true) :
    db ++ llm.queryAllLogged s prompt opts = db := by
  have h : llm.queryAllLogged s prompt opts = [] := by
    unfold llm.queryAllLogged
    simp [queryAllTask_logged_nil]
  rw [h, List.append_nil]

/-- A service with a logger attached whose single provider always
succeeds. -/
def loggedOkService : llm.Service :=
  { providers := [("deepseek", okProvider)], logger := true }

/-- Witness for C8 on a concrete logger-attached service with a succeeding
provider and a non-empty store. -/
theorem C8_queryAll_no_history_write_witness :
    [({ prompt := "old", model := "deepseek-chat", response := "r",
        duration := 1, temperature := 7 / 10 } : llm.EmittedQuery)] ++
      llm.queryAllLogged loggedOkService "hi" [] =
    [({ prompt := "old", model := "deepseek-chat", response := "r",
        duration := 1, temperature := 7 / 10 } : llm.EmittedQuery)] :=
  C8_queryAll_no_history_write loggedOkService "hi" []
    [{ prompt := "old", model := "deepseek-chat", response := "r",
       duration := 1, temperature := 7 / 10 }] rfl

/-- **C9.** `Service.Query` returns exactly the response text and error
that `Service.QueryWithTiming` returns on the same inputs, with the
elapsed-time component dropped. -/
theorem C9_query_is_projection (s : llm.Service) (prompt modelName : String)
    (opts : List llm.Opt) :
    llm.Query s prompt modelName opts =
      ((llm.QueryWithTiming s prompt modelName opts).response,
        (llm.QueryWithTiming s prompt modelName opts).error) := rfl

/-- The last model set by an option sequence, if any: the caller-supplied
routing model the composed options end up carrying. -/
def llm.lastModelSet (opts : List llm.Opt) : Option String :=
  opts.foldl
    (fun acc o => match o with | llm.Opt.WithModel mm => some mm | _ => acc) none

/-- Folding options over any starting value yields as final model the last
model an option set, tracked by the `lastModelSet` accumulator. -/
theorem foldl_applyOpt_model (opts : List llm.Opt) :
    ∀ (a : Option String) (init : llm.RequestOptions) (m2 : String),
      (∀ x, a = some x → init.model = x) →
      opts.foldl
        (fun acc o => match o with | llm.Opt.WithModel mm => some mm | _ => acc) a =
        some m2 →
      (opts.foldl llm.applyOpt init).model = m2 := by
  induction opts with
  | nil => intro a init m2 hai ha; exact hai m2 ha
  | cons o rest ih =>
      intro a init m2 hai ha
      simp only [List.foldl_cons] at ha ⊢
      refine ih _ _ m2 ?_ ha
      cases o with
      | WithModel mm =>
          intro x hx
          rw [show (llm.applyOpt init (llm.Opt.WithModel mm)).model = mm from rfl]
          exact Option.some_inj.mp hx
      | WithMaxTokens n => intro x hx; exact hai x hx
      | WithTemperature t => intro x hx; exact hai x hx
      | WithCustomParam k v => intro x hx; exact hai x hx

/-- Under distinct provider names, each configured provider's entry in the
canonical `QueryAll` result is its own task's response. -/
theorem queryAll_entry (s : llm.Service) (prompt : String) (opts : List llm.Opt)
    (pn : String) (p : llm.ProviderF)
    (hmem : (pn, p) ∈ s.providers)
    (hnd : (s.providers.map Prod.fst).Nodup) :
    mapGet (llm.QueryAll s prompt opts) pn =
      some (llm.queryAllTask pn p prompt opts).resp := by
  have hkeys : (llm.queryAllWrites s prompt opts).map Prod.fst = s.providers.map Prod.fst := by
    simp [llm.queryAllWrites]
  have hndws : ((llm.queryAllWrites s prompt opts).map Prod.fst).Nodup := by
    rw [hkeys]; exact hnd
  have hcw : llm.QueryAll s prompt opts = llm.queryAllWrites s prompt opts := by
    have h := foldl_mapSet_eq_append (llm.queryAllWrites s prompt opts) [] (by simpa using hndws)
    simpa [llm.QueryAll, llm.collectWrites] using h
  rw [hcw]
  have hw : (pn, (llm.queryAllTask pn p prompt opts).resp) ∈ llm.queryAllWrites s prompt opts :=
    List.mem_map_of_mem (fun e => (e.1, (llm.queryAllTask e.1 e.2 prompt opts).resp)) hmem
  exact mapGet_of_mem_nodup _ _ _ hndws hw

/-- **C10.** In every `QueryAll` result, a provider entry's `model` field
is that provider's default model (the first entry of its registry list),
even when the caller's options carry a different model: the default-model
option is prepended, so the caller's model is what the composed options
send to the adapter, while the reported field still names the default. -/
theorem C10_queryAll_reports_default_model (s : llm.Service) (prompt : String)
    (opts : List llm.Opt) (pn : String) (p : llm.ProviderF) (dm m2 : String)
    (hmem : (pn, p) ∈ s.providers)
    (hnd : (s.providers.map Prod.fst).Nodup)
    (hdm : llm.GetDefaultModelForProvider pn = .ok dm)
    (hm2 : llm.lastModelSet opts = some m2) :
    (∃ r, mapGet (llm.QueryAll s prompt opts) pn = some r ∧ r.model = dm) ∧
    (llm.composeOpts (llm.Opt.WithModel dm :: opts)).model = m2 := by
  constructor
  · have h := queryAll_entry s prompt opts pn p hmem hnd
    refine ⟨(llm.queryAllTask pn p prompt opts).resp, h, ?_⟩
    unfold llm.queryAllTask
    rw [hdm]
  · unfold llm.composeOpts
    simp only [List.foldl_cons]
    refine foldl_applyOpt_model opts none _ m2 ?_ ?_
    · intro x hx; cases hx
    · unfold llm.lastModelSet at hm2
      exact hm2

/-- Witness for C10 on a concrete service: the `google` entry reports the
default model `gemini-2.5-pro-exp-03-25` even though the caller's options
carry `deepseek-chat`, which is the model the composed options send to the
adapter. -/
theorem C10_queryAll_reports_default_model_witness :
    (∃ r, mapGet (llm.QueryAll
        { providers := [("google", okProvider)], logger := false } "hi"
        [llm.Opt.WithModel "deepseek-chat"]) "google" = some r ∧
      r.model = "gemini-2.5-pro-exp-03-25") ∧
    (llm.composeOpts (llm.Opt.WithModel "gemini-2.5-pro-exp-03-25" ::
        [llm.Opt.WithModel "deepseek-chat"])).model = "deepseek-chat" :=
  C10_queryAll_reports_default_model
    { providers := [("google", okProvider)], logger := false } "hi"
    [llm.Opt.WithModel "deepseek-chat"] "google" okProvider
    "gemini-2.5-pro-exp-03-25" "deepseek-chat"
    (List.mem_cons_self _ _) (by decide) rfl rfl

/-- **C4.** `QueryWithTiming` on a model unknown to the registry fails with
the unknown-model error and emits no history record; a model known to the
registry whose provider has no configured adapter fails with the distinct
provider-not-configured error, again emitting no history record. -/
theorem C4_queryWithTiming_failures (s : llm.Service) (prompt : String)
    (opts : List llm.Opt) (m : String) :
    (llm.IsValidModel m = false →
      llm.QueryWithTiming s prompt m opts =
        { response := "", elapsed := 0,
          error := some (.unknownModel m), logged := [] }) ∧
    (∀ pn, llm.GetProviderForModel m = some pn → mapGet s.providers pn = none →
      llm.QueryWithTiming s prompt m opts =
        { response := "", elapsed := 0,
          error := some (.providerNotConfigured pn), logged := [] }) := by
  constructor
  · intro h
    unfold llm.QueryWithTiming
    rw [h]
    rfl
  · intro pn h1 h2
    have hvalid : llm.IsValidModel m = true := by
      unfold llm.IsValidModel
      rw [h1]
      rfl
    unfold llm.QueryWithTiming
    rw [hvalid, h1]
    simp [h2]

/-- Witness for C4: on a service with no adapters, `unknown-model` yields
the unknown-model failure, and the registry-known `deepseek-chat` yields
the provider-not-configured failure for `deepseek`; neither emits a
history record. -/
theorem C4_queryWithTiming_failures_witness :
    llm.QueryWithTiming { providers := [], logger := true } "hi" "unknown-model" [] =
      { response := "", elapsed := 0,
        error := some (.unknownModel "unknown-model"), logged := [] } ∧
    llm.QueryWithTiming { providers := [], logger := true } "hi" "deepseek-chat" [] =
      { response := "", elapsed := 0,
        error := some (.providerNotConfigured "deepseek"), logged := [] } :=
  ⟨(C4_queryWithTiming_failures { providers := [], logger := true } "hi" [] "unknown-model").1
      (by decide),
   (C4_queryWithTiming_failures { providers := [], logger := true } "hi" [] "deepseek-chat").2
      "deepseek" (by decide) rfl⟩

/-- On the success path with a logger attached, `QueryWithTiming` emits
exactly one record, carrying the extracted temperature. -/
theorem queryWithTiming_success_logged (s : llm.Service) (prompt m : String)
    (opts : List llm.Opt) (pn : String) (p : llm.ProviderF)
    (h1 : llm.GetProviderForModel m = some pn)
    (h2 : mapGet s.providers pn = some p)
    (h3 : s.logger = true)
    (h4 : (p prompt (llm.Opt.WithModel m :: opts)).error = none) :
    (llm.QueryWithTiming s prompt m opts).logged =
      [{ prompt := prompt, model := m,
         response := (p prompt (llm.Opt.WithModel m :: opts)).response,
         duration := (p prompt (llm.Opt.WithModel m :: opts)).elapsed,
         temperature := llm.extractTemperature (llm.Opt.WithModel m :: opts) }] := by
  have hvalid : llm.IsValidModel m = true := by
    unfold llm.IsValidModel
    rw [h1]
    rfl
  unfold llm.QueryWithTiming
  rw [hvalid, h1]
  simp only [Option.getD_some, h2, h3, h4]
  rfl

/-- Appending an explicit zero temperature does not change the extracted
temperature: the extraction loop skips it, exactly as it skips "unset". -/
theorem extract_append_zero (opts : List llm.Opt) :
    llm.extractTemperature (opts ++ [llm.Opt.WithTemperature 0]) =
      llm.extractTemperature opts := by
  unfold llm.extractTemperature
  rw [List.foldl_append]
  simp [llm.extractStep, llm.applyOpt]

/-- **C5 (amended).** The temperature recorded with the Query Record is the
one the extraction loop computes: it equals the composed options'
temperature whenever that composed temperature is non-zero, and equals the
default `0.7` whenever no option sets a non-zero temperature; an explicit
`0.0` temperature is indistinguishable from unset (appending it changes
nothing), so it is recorded as `0.7` only when no option sets a non-zero
temperature — otherwise the last non-zero temperature prevails. -/
theorem C5_recorded_temperature (s : llm.Service) (prompt m : String)
    (opts : List llm.Opt) (pn : String) (p : llm.ProviderF)
    (h1 : llm.GetProviderForModel m = some pn)
    (h2 : mapGet s.providers pn = some p)
    (h3 : s.logger = true)
    (h4 : (p prompt (llm.Opt.WithModel m :: opts)).error = none) :
    ∃ rec, (llm.QueryWithTiming s prompt m opts).logged = [rec] ∧
      rec.temperature = llm.extractTemperature (llm.Opt.WithModel m :: opts) ∧
      ((llm.composeOpts (llm.Opt.WithModel m :: opts)).temperature ≠ 0 →
        rec.temperature = (llm.composeOpts (llm.Opt.WithModel m :: opts)).temperature) ∧
      ((∀ o ∈ opts, (llm.applyOpt {} o).temperature = 0) → rec.temperature = 7 / 10) ∧
      llm.extractTemperature (llm.Opt.WithModel m :: (opts ++ [llm.Opt.WithTemperature 0])) =
        llm.extractTemperature (llm.Opt.WithModel m :: opts) := by
  refine ⟨_, queryWithTiming_success_logged s prompt m opts pn p h1 h2 h3 h4, rfl, ?_, ?_, ?_⟩
  · intro hc
    exact extract_tracks_composed (llm.Opt.WithModel m :: opts) {} (7 / 10)
      (fun h0 => absurd rfl h0) hc
  · intro hz
    have hall : ∀ o ∈ llm.Opt.WithModel m :: opts, (llm.applyOpt {} o).temperature = 0 := by
      intro o ho
      rcases List.mem_cons.mp ho with heq | hmem
      · subst heq; rfl
      · exact hz o hmem
    exact extract_const_of_all_zero (llm.Opt.WithModel m :: opts) hall (7 / 10)
  · rw [show llm.Opt.WithModel m :: (opts ++ [llm.Opt.WithTemperature 0]) =
        (llm.Opt.WithModel m :: opts) ++ [llm.Opt.WithTemperature 0] from rfl]
    exact extract_append_zero (llm.Opt.WithModel m :: opts)

/-- Witness for the amended C5 on a concrete logger-attached service:
the caller sets temperature `0.9`; the recorded temperature is `0.9`. -/
theorem C5_recorded_temperature_witness :
    ∃ rec, (llm.QueryWithTiming loggedOkService "hi" "deepseek-chat"
        [llm.Opt.WithTemperature (9 / 10)]).logged = [rec] ∧
      rec.temperature =
        llm.extractTemperature (llm.Opt.WithModel "deepseek-chat" ::
          [llm.Opt.WithTemperature (9 / 10)]) ∧
      ((llm.composeOpts (llm.Opt.WithModel "deepseek-chat" ::
          [llm.Opt.WithTemperature (9 / 10)])).temperature ≠ 0 →
        rec.temperature = (llm.composeOpts (llm.Opt.WithModel "deepseek-chat" ::
          [llm.Opt.WithTemperature (9 / 10)])).temperature) := by
  obtain ⟨rec, ha, hb, hc, _, _⟩ :=
    C5_recorded_temperature loggedOkService "hi" "deepseek-chat"
      [llm.Opt.WithTemperature (9 / 10)] "deepseek" okProvider
      (by decide) rfl rfl rfl
  exact ⟨rec, ha, hb, hc⟩

/-- **C5 counterexample.** With caller options
`[WithTemperature 0.5, WithTemperature 0.0]` the composed options carry an
explicit `0.0` temperature, yet the record logs `0.5`, not the `0.7` the
claim demands for an explicit `0.0`. -/
theorem C5_explicit_zero_not_default :
    (llm.QueryWithTiming loggedOkService "hi" "deepseek-chat"
        [llm.Opt.WithTemperature (1 / 2), llm.Opt.WithTemperature 0]).logged =
      [{ prompt := "hi", model := "deepseek-chat", response := "pong", duration := 5,
         temperature := 1 / 2 }] ∧
    (llm.composeOpts (llm.Opt.WithModel "deepseek-chat" ::
        [llm.Opt.WithTemperature (1 / 2), llm.Opt.WithTemperature 0])).temperature = 0 ∧
    (1 : ℚ) / 2 ≠ 7 / 10 := by
  refine ⟨?_, ?_, by norm_num⟩
  · have h := queryWithTiming_success_logged loggedOkService "hi" "deepseek-chat"
      [llm.Opt.WithTemperature (1 / 2), llm.Opt.WithTemperature 0] "deepseek" okProvider
      (by decide) rfl rfl rfl
    rw [h]
    norm_num [llm.extractTemperature, llm.extractStep, llm.applyOpt, okProvider]
  · norm_num [llm.composeOpts, llm.applyOpt]

namespace logger

/-- One row of the `queries` table (`part: logger source, CREATE TABLE`).
The `timestamp` column holds the instant denoted by the stored
`time.RFC3339` text, in whole seconds since the epoch: the RFC3339 layout
`2006-01-02T15:04:05Z07:00` carries no fractional second, so formatting
keeps only whole seconds, and for a fixed UTC offset the SQL ordering of
the stored strings is the numeric ordering of these values. -/
structure Row where
  id : String
  timestamp : ℕ
  prompt : String
  model : String
  response : String
  durationMs : ℕ
  temperature : ℚ
deriving DecidableEq, Repr

/-- The `Query` struct read back by the retrieval operations; `Timestamp`
is the instant parsed from the stored RFC3339 text, in nanoseconds
(whole-second precision, as stored). `Duration` is the stored
`duration_ms` value. -/
structure Query where
  ID : String
  Timestamp : ℕ
  Prompt : String
  Model : String
  Response : String
  Duration : ℕ
  Temperature : ℚ
deriving DecidableEq, Repr

/-- `Logger.LogQuery`: append one row with the fresh `id`, the current
instant `now` (nanoseconds, supplied by the clock) formatted to whole
seconds, and the duration (nanoseconds) converted to milliseconds via
`Duration.Milliseconds`. -/
def LogQuery (id : String) (now : ℕ) (prompt model response : String)
    (duration : ℕ) (temperature : ℚ) (db : List Row) : List Row :=
  db ++ [{ id := id, timestamp := now / 1000000000, prompt := prompt,
           model := model, response := response,
           durationMs := duration / 1000000, temperature := temperature }]

/-- Row scan plus `time.Parse(time.RFC3339)`: the stored whole-second
instant becomes the record's timestamp. -/
def rowToQuery (r : Row) : Query :=
  { ID := r.id, Timestamp := r.timestamp * 1000000000, Prompt := r.prompt,
    Model := r.model, Response := r.response, Duration := r.durationMs,
    Temperature := r.temperature }

/-- Insertion step of the embedding of `ORDER BY timestamp DESC`. -/
def insertRowDesc (r : Row) : List Row → List Row
  | [] => [r]
  | x :: xs => if r.timestamp ≤ x.timestamp then x :: insertRowDesc r xs else r :: x :: xs

/-- The embedding of `ORDER BY timestamp DESC`: sort rows by stored
timestamp, newest first. -/
def sortRowsDesc : List Row → List Row
  | [] => []
  | x :: xs => insertRowDesc x (sortRowsDesc xs)

/-- `Logger.GetRecentQueries`: default the limit to 10 when it is `≤ 0`,
then `SELECT ... ORDER BY timestamp DESC LIMIT limit` and scan. -/
def GetRecentQueries (limit : ℤ) (db : List Row) : List Query :=
  let lim : ℤ := if limit ≤ 0 then 10 else limit
  ((sortRowsDesc db).take lim.toNat).map rowToQuery

/-- SQLite's `LIKE` operator on character lists, fuelled so that it is
structurally recursive (`fuel = |pattern| + |text| + 1` always suffices,
every step consuming at least one character of pattern or text):
`%` matches any run of characters, `_` any single character, and plain
characters compare ASCII-case-insensitively, SQLite's default. -/
def likeMatchF : ℕ → List Char → List Char → Bool
  | 0, _, _ => false
  | _ + 1, [], s => s.isEmpty
  | fuel + 1, '%' :: ps, s =>
      likeMatchF fuel ps s ||
        (match s with
         | [] => false
         | _ :: s2 => likeMatchF fuel ('%' :: ps) s2)
  | fuel + 1, '_' :: ps, s =>
      (match s with
       | [] => false
       | _ :: s2 => likeMatchF fuel ps s2)
  | fuel + 1, c :: ps, s =>
      (match s with
       | [] => false
       | d :: s2 => (c.toLower == d.toLower) && likeMatchF fuel ps s2)

/-- `pattern LIKE` applied to a string, with sufficient fuel. -/
def likeHolds (pattern hay : String) : Bool :=
  likeMatchF (pattern.toList.length + hay.toList.length + 1) pattern.toList hay.toList

/-- `Logger.SearchQueries`: build the pattern `%text%`, keep the rows whose
`prompt` or `response` the pattern matches (`WHERE prompt LIKE ? OR
response LIKE ?`), order newest first, bound by the limit (default 10), and
scan. -/
def SearchQueries (text : String) (limit : ℤ) (db : List Row) : List Query :=
  let lim : ℤ := if limit ≤ 0 then 10 else limit
  let pattern := "%" ++ text ++ "%"
  ((sortRowsDesc (db.filter
      (fun r => likeHolds pattern r.prompt || likeHolds pattern r.response))).take
    lim.toNat).map rowToQuery

end logger

/-- Literal substring occurrence, the claim's reading of "occurs in". -/
def strOccurs (needle hay : String) : Bool :=
  hay.toList.tails.any (fun t => needle.toList.isPrefixOf t)

/-- Membership in the insertion step is membership in the inserted row or
the rest. -/
theorem mem_insertRowDesc (r x : logger.Row) (l : List logger.Row) :
    x ∈ logger.insertRowDesc r l ↔ x = r ∨ x ∈ l := by
  induction l with
  | nil => simp [logger.insertRowDesc]
  | cons y ys ih =>
      by_cases h : r.timestamp ≤ y.timestamp
      · simp [logger.insertRowDesc, h, ih]
        tauto
      · simp [logger.insertRowDesc, h]

/-- Sorting keeps exactly the rows. -/
theorem mem_sortRowsDesc (x : logger.Row) (l : List logger.Row) :
    x ∈ logger.sortRowsDesc l ↔ x ∈ l := by
  induction l with
  | nil => simp [logger.sortRowsDesc]
  | cons y ys ih =>
      simp [logger.sortRowsDesc, mem_insertRowDesc, ih]

/-- The insertion step preserves descending order by stored timestamp. -/
theorem pairwise_insertRowDesc (r : logger.Row) (l : List logger.Row)
    (h : l.Pairwise (fun a b => b.timestamp ≤ a.timestamp)) :
    (logger.insertRowDesc r l).Pairwise (fun a b => b.timestamp ≤ a.timestamp) := by
  induction l with
  | nil => simp [logger.insertRowDesc]
  | cons y ys ih =>
      rcases List.pairwise_cons.mp h with ⟨hy, hys⟩
      by_cases hc : r.timestamp ≤ y.timestamp
      · rw [logger.insertRowDesc, if_pos hc]
        refine List.pairwise_cons.mpr ⟨?_, ih hys⟩
        intro z hz
        rcases (mem_insertRowDesc r z ys).mp hz with rfl | hzys
        · exact hc
        · exact hy z hzys
      · rw [logger.insertRowDesc, if_neg hc]
        refine List.pairwise_cons.mpr ⟨?_, h⟩
        intro z hz
        rcases List.mem_cons.mp hz with rfl | hzys
        · exact Nat.le_of_lt (Nat.lt_of_not_le hc)
        · exact Nat.le_trans (hy z hzys) (Nat.le_of_lt (Nat.lt_of_not_le hc))

/-- The sorted rows are in descending stored-timestamp order. -/
theorem pairwise_sortRowsDesc (l : List logger.Row) :
    (logger.sortRowsDesc l).Pairwise (fun a b => b.timestamp ≤ a.timestamp) := by
  induction l with
  | nil => simp [logger.sortRowsDesc]
  | cons y ys ih => exact pairwise_insertRowDesc y (logger.sortRowsDesc ys) ih

/-- **C7.** `getRecentQueries(limit)` returns a sequence ordered most
recent first (descending stored timestamp), with length at most `limit`
when `limit` is positive and at most the default 10 when `limit ≤ 0`. -/
theorem C7_recent_sorted_bounded (limit : ℤ) (db : List logger.Row) :
    (logger.GetRecentQueries limit db).Pairwise (fun a b => b.Timestamp ≤ a.Timestamp) ∧
    (logger.GetRecentQueries limit db).length ≤
      (if limit ≤ 0 then (10 : ℤ) else limit).toNat := by
  constructor
  · unfold logger.GetRecentQueries
    refine List.pairwise_map.mpr ?_
    exact ((pairwise_sortRowsDesc db).sublist (List.take_sublist _ _)).imp
      (fun hab => Nat.mul_le_mul_right _ hab)
  · unfold logger.GetRecentQueries
    simp only [List.length_map, List.length_take]
    exact Nat.min_le_left _ _

/-- **C3 (amended).** A successful `logQuery` followed immediately by
`getRecentQueries(1)` returns exactly one record whose prompt, model,
response, duration (in milliseconds, as stored) and temperature equal the
logged values, and whose timestamp reads back as the written instant
truncated to whole seconds — provided every existing row's stored
timestamp is strictly older than the new row's (the write is genuinely
the most recent, as an immediately-following read implies). -/
theorem C3_log_then_recent_roundtrip (id : String) (now : ℕ)
    (prompt model response : String) (duration : ℕ) (temperature : ℚ)
    (db : List logger.Row)
    (h : ∀ r ∈ db, r.timestamp < now / 1000000000) :
    logger.GetRecentQueries 1
        (logger.LogQuery id now prompt model response duration temperature db) =
      [{ ID := id, Timestamp := now / 1000000000 * 1000000000, Prompt := prompt,
         Model := model, Response := response, Duration := duration / 1000000,
         Temperature := temperature }] := by
  set nr : logger.Row :=
    { id := id, timestamp := now / 1000000000, prompt := prompt, model := model,
      response := response, durationMs := duration / 1000000,
      temperature := temperature } with hnr
  have hlq : logger.LogQuery id now prompt model response duration temperature db =
      db ++ [nr] := rfl
  have hmem : nr ∈ logger.sortRowsDesc (db ++ [nr]) :=
    (mem_sortRowsDesc _ _).mpr (by simp)
  obtain ⟨h0, t, hs⟩ : ∃ h0 t, logger.sortRowsDesc (db ++ [nr]) = h0 :: t := by
    cases hsort : logger.sortRowsDesc (db ++ [nr]) with
    | nil => rw [hsort] at hmem; cases hmem
    | cons a b => exact ⟨a, b, rfl⟩
  have hh0 : h0 = nr := by
    by_contra hne
    have hh0mem : h0 ∈ db ++ [nr] :=
      (mem_sortRowsDesc _ _).mp (hs ▸ List.mem_cons_self _ _)
    have hh0db : h0 ∈ db := by
      rcases List.mem_append.mp hh0mem with hdb | hone
      · exact hdb
      · exact absurd (List.mem_singleton.mp hone) hne
    have hlt : h0.timestamp < now / 1000000000 := h h0 hh0db
    have hnrt : nr ∈ t := by
      rw [hs] at hmem
      rcases List.mem_cons.mp hmem with heq | ht
      · exact absurd heq.symm hne
      · exact ht
    have hpair := pairwise_sortRowsDesc (db ++ [nr])
    rw [hs] at hpair
    have hle : nr.timestamp ≤ h0.timestamp := (List.pairwise_cons.mp hpair).1 nr hnrt
    have hts : nr.timestamp = now / 1000000000 := rfl
    rw [hts] at hle
    exact absurd hle (Nat.not_le_of_lt hlt)
  unfold logger.GetRecentQueries
  rw [hlq, hs, hh0]
  rfl

/-- Witness for the amended C3: a concrete log at instant `1.5 s` on an
empty store reads back with its fields and the truncated-second
timestamp. -/
theorem C3_log_then_recent_roundtrip_witness :
    logger.GetRecentQueries 1 (logger.LogQuery "id0" 1500000000 "p" "m" "r" 2500000 1 []) =
      [{ ID := "id0", Timestamp := 1000000000, Prompt := "p", Model := "m",
         Response := "r", Duration := 2, Temperature := 1 }] := by
  have h := C3_log_then_recent_roundtrip "id0" 1500000000 "p" "m" "r" 2500000 1 []
    (by simp)
  simpa using h

/-- **C3 counterexample.** Logging at the instant `1 ns` stores the
RFC3339-formatted timestamp `0 s`; reading back yields timestamp `0`,
not the written instant `1`: the stored creation instant does not
round-trip exactly (only at whole-second precision), although every other
field reads back equal. -/
theorem C3_timestamp_not_exact :
    logger.GetRecentQueries 1 (logger.LogQuery "id0" 1 "p" "m" "r" 5000000 1 []) =
      [{ ID := "id0", Timestamp := 0, Prompt := "p", Model := "m", Response := "r",
         Duration := 5, Temperature := 1 }] ∧ (0 : ℕ) ≠ 1 := by
  exact ⟨by decide, by decide⟩

/-- **C6 (amended).** `searchQueries(substring)` returns only records whose
prompt or response matches the SQLite pattern `%substring%` under `LIKE`'s
default semantics (ASCII-case-insensitive, with `%`/`_` in the substring
acting as wildcards) — records matching neither way are excluded — and on
an empty store the call returns the empty sequence rather than a
failure. -/
theorem C6_search_only_matching (text : String) (limit : ℤ) (db : List logger.Row) :
    (∀ q ∈ logger.SearchQueries text limit db,
      logger.likeHolds ("%" ++ text ++ "%") q.Prompt = true ∨
      logger.likeHolds ("%" ++ text ++ "%") q.Response = true) ∧
    logger.SearchQueries text limit [] = [] := by
  constructor
  · intro q hq
    unfold logger.SearchQueries at hq
    obtain ⟨r, hr, hq'⟩ := List.mem_map.mp hq
    have hr1 : r ∈ logger.sortRowsDesc (db.filter
        (fun r => logger.likeHolds ("%" ++ text ++ "%") r.prompt ||
          logger.likeHolds ("%" ++ text ++ "%") r.response)) :=
      List.take_subset _ _ hr
    have hr2 := (mem_sortRowsDesc _ _).mp hr1
    have hf := (List.mem_filter.mp hr2).2
    rw [Bool.or_eq_true] at hf
    rcases hf with hp | hresp
    · left
      rw [show q.Prompt = r.prompt from by rw [hq'.symm]; rfl]
      exact hp
    · right
      rw [show q.Response = r.response from by rw [hq'.symm]; rfl]
      exact hresp
  · simp [logger.SearchQueries, logger.sortRowsDesc]

/-- The row used to instantiate C6 concretely. -/
def wildcardRow : logger.Row :=
  { id := "i", timestamp := 0, prompt := "AxB", model := "m", response := "",
    durationMs := 0, temperature := 1 }

/-- Witness for the amended C6: the one record returned for the search
text `A%B` does match the `LIKE` pattern on its prompt or response. -/
theorem C6_search_only_matching_witness :
    logger.likeHolds ("%" ++ "A%B" ++ "%") (logger.rowToQuery wildcardRow).Prompt = true ∨
    logger.likeHolds ("%" ++ "A%B" ++ "%") (logger.rowToQuery wildcardRow).Response = true :=
  (C6_search_only_matching "A%B" 10 [wildcardRow]).1 (logger.rowToQuery wildcardRow)
    (by decide)

/-- **C6 counterexample.** Searching for `A%B` returns the record with
prompt `AxB` and empty response, although the substring `A%B` occurs in
neither field: SQLite's `LIKE` treats `%` in the search text as a
wildcard, so a record with no occurrence of the substring is not
excluded. -/
theorem C6_wildcard_hit_without_occurrence :
    logger.SearchQueries "A%B" 10 [wildcardRow] =
      [{ ID := "i", Timestamp := 0, Prompt := "AxB", Model := "m", Response := "",
         Duration := 0, Temperature := 1 }] ∧
    strOccurs "A%B" "AxB" = false ∧ strOccurs "A%B" "" = false := by
  exact ⟨by decide, by decide, by decide⟩
